import Mathlib

/- Verification development for dso-log-scrubber (src/main.py).

   The scrubbing engine (`LogScrubber._scrub_line`) calls Python's
   `re.sub(pattern, repl, s)` once per configured rule.  We embed the
   fragment of Python regular expressions that the tool's rules use:
   literal characters, escapes (\w \d \s \W \D \S, control escapes,
   escaped punctuation, \xHH), character classes with ranges and
   negation, the dot, greedy and lazy quantifiers (* + ? and the brace
   forms for exact/at-least/bounded repetition) and alternation.
   Constructs outside this fragment (groups, anchors, backreferences,
   octal escapes) are modelled as compile errors, as are the strings
   Python itself rejects (unbalanced brackets, bad character ranges, bad
   escapes, multiple repeat, nothing to repeat).  Matching follows
   Python's backtracking search: leftmost starting position, alternatives
   tried left first, greedy quantifiers prefer the longer match and lazy
   ones the shorter.  Character semantics are ASCII (the inputs of the
   verified scenarios are ASCII, where Python's unicode \w coincides). -/

namespace LogScrubber

/-- The five synthetic-data categories of the `Faker` instance
    (`fake.name()`, `fake.email()`, `fake.address()`,
    `fake.phone_number()`, `fake.credit_card_number()`). -/
inductive SynthCategory where
  | name
  | email
  | address
  | phoneNumber
  | creditCardNumber
deriving DecidableEq

/-- One element of a character class: a single character or an inclusive
    range. -/
inductive ClassItem where
  | single (c : Char)
  | range (lo hi : Char)
deriving DecidableEq

/-- Does character `c` satisfy this class element? -/
def ClassItem.holds (c : Char) : ClassItem → Bool
  | .single d => c == d
  | .range lo hi => decide (lo ≤ c) && decide (c ≤ hi)

/-- Membership of `c` in a (possibly negated) character class. -/
def memClass (items : List ClassItem) (neg : Bool) (c : Char) : Bool :=
  (items.any (ClassItem.holds c)) != neg

/-- Abstract syntax of the embedded regular-expression fragment. -/
inductive Regex where
  | eps
  | char (c : Char)
  | cls (items : List ClassItem) (neg : Bool)
  | cat (r1 r2 : Regex)
  | alt (r1 r2 : Regex)
  | star (r : Regex) (greedy : Bool)
deriving DecidableEq

/-- Size of a regex, used to bound the matcher's recursion depth. -/
def Regex.size : Regex → Nat
  | .eps => 1
  | .char _ => 1
  | .cls _ _ => 1
  | .cat r1 r2 => r1.size + r2.size + 1
  | .alt r1 r2 => r1.size + r2.size + 1
  | .star r _ => r.size + 1

/-- Backtracking matcher in continuation-passing style, mirroring
    Python's backtracking search: on `alt`, the left alternative is tried
    first; a greedy `star` tries one more iteration before stopping, a
    lazy one stops first; an iteration of `star` must consume input (this
    is how the model guarantees termination on patterns whose repeated
    body could match the empty string).  `k` receives the input remaining
    after the candidate match; the first candidate accepted by `k` wins. -/
def matchC : Nat → Regex → List Char → (List Char → Option (List Char)) → Option (List Char)
  | 0, _, _, _ => none
  | fuel + 1, r, s, k =>
    match r with
    | .eps => k s
    | .char c =>
      match s with
      | [] => none
      | x :: xs => if x == c then k xs else none
    | .cls items neg =>
      match s with
      | [] => none
      | x :: xs => if memClass items neg x then k xs else none
    | .cat r1 r2 => matchC fuel r1 s fun s1 => matchC fuel r2 s1 k
    | .alt r1 r2 =>
      match matchC fuel r1 s k with
      | some res => some res
      | none => matchC fuel r2 s k
    | .star r1 greedy =>
      if greedy then
        match matchC fuel r1 s
            (fun s1 => if s1.length < s.length then matchC fuel (.star r1 greedy) s1 k else none) with
        | some res => some res
        | none => k s
      else
        match k s with
        | some res => some res
        | none =>
          matchC fuel r1 s
            (fun s1 => if s1.length < s.length then matchC fuel (.star r1 greedy) s1 k else none)

/-- The remainder of `s` after the preferred match of `r` at its start,
    if any. -/
def matchHere (fuel : Nat) (r : Regex) (s : List Char) : Option (List Char) :=
  matchC fuel r s some

/-- Is there a match of `r` starting at some position of `s` (including
    the empty-suffix position at the end)? -/
def existsMatch (fuel : Nat) (r : Regex) : List Char → Bool
  | [] => (matchHere fuel r []).isSome
  | c :: cs => (matchHere fuel r (c :: cs)).isSome || existsMatch fuel r cs

/-- The substitution scan of `re.sub`: walk the input left to right; at
    each position substitute the replacement for the preferred match and
    continue after it (a zero-length match substitutes and then lets the
    following character through, so the scan always advances); characters
    where no match starts are kept.  The first argument bounds the number
    of scan steps; every step consumes at least one character, so the
    input's length suffices (the exhausted-bound arm is then never
    reached). -/
def subAllK : Nat → Nat → Regex → List Char → List Char → List Char
  | _, fuel, r, repl, [] =>
    match matchHere fuel r [] with
    | some _ => repl
    | none => []
  | 0, _, _, _, c :: cs => c :: cs
  | k + 1, fuel, r, repl, c :: cs =>
    match matchHere fuel r (c :: cs) with
    | some rest =>
      if rest.length < (c :: cs).length then
        repl ++ subAllK k fuel r repl rest
      else
        repl ++ c :: subAllK k fuel r repl cs
    | none => c :: subAllK k fuel r repl cs

/-- `subAllK` at the scan bound that always suffices. -/
def subAll (fuel : Nat) (r : Regex) (repl s : List Char) : List Char :=
  subAllK s.length fuel r repl s

/-- Fuel sufficient for the matcher on `s` and every suffix of `s`. -/
def subFuel (r : Regex) (s : List Char) : Nat :=
  (r.size + 2) * (s.length + 2)

/-- Class denoted by `\w`: ASCII word characters. -/
def wordItems : List ClassItem :=
  [.range 'a' 'z', .range 'A' 'Z', .range '0' '9', .single '_']

/-- Class denoted by `\d`. -/
def digitItems : List ClassItem :=
  [.range '0' '9']

/-- Class denoted by `\s` (ASCII whitespace). -/
def spaceItems : List ClassItem :=
  [.single ' ', .single '\t', .single '\n', .single '\r', .single '\x0b', .single '\x0c']

/-- Value of a hexadecimal digit, if it is one. -/
def hexVal (c : Char) : Option Nat :=
  if '0' ≤ c ∧ c ≤ '9' then some (c.toNat - '0'.toNat)
  else if 'a' ≤ c ∧ c ≤ 'f' then some (c.toNat - 'a'.toNat + 10)
  else if 'A' ≤ c ∧ c ≤ 'F' then some (c.toNat - 'A'.toNat + 10)
  else none

/-- Result of resolving one backslash escape in a pattern: a single
    character, or a (possibly negated) character-class contribution. -/
inductive EscResult where
  | ch (c : Char)
  | items (its : List ClassItem) (neg : Bool)

/-- Resolve the escape following a backslash in a pattern, following
    Python `re`: class shorthands, control escapes (`\b` is a backspace
    only inside a class), `\xHH`, and escaped punctuation as the literal
    character.  Unknown letter escapes are errors, as in Python; digits
    (backreferences/octal escapes) and the anchors `\A \b \B \Z` are
    outside the modelled fragment and also reported as errors. -/
def parseEscape (inClass : Bool) : List Char → Option (EscResult × List Char)
  | [] => none
  | c :: rest =>
    if c = 'w' then some (.items wordItems false, rest)
    else if c = 'W' then some (.items wordItems true, rest)
    else if c = 'd' then some (.items digitItems false, rest)
    else if c = 'D' then some (.items digitItems true, rest)
    else if c = 's' then some (.items spaceItems false, rest)
    else if c = 'S' then some (.items spaceItems true, rest)
    else if c = 'n' then some (.ch '\n', rest)
    else if c = 't' then some (.ch '\t', rest)
    else if c = 'r' then some (.ch '\r', rest)
    else if c = 'a' then some (.ch '\x07', rest)
    else if c = 'f' then some (.ch '\x0c', rest)
    else if c = 'v' then some (.ch '\x0b', rest)
    else if c = 'b' then
      if inClass then some (.ch '\x08', rest) else none
    else if c = 'x' then
      match rest with
      | h1 :: h2 :: rest2 =>
        match hexVal h1, hexVal h2 with
        | some a, some b => some (.ch (Char.ofNat (16 * a + b)), rest2)
        | _, _ => none
      | _ => none
    else if c.isAlpha || c.isDigit then none
    else some (.ch c, rest)

/-- Parse one single-character element of a class body (a literal
    character or an escape that denotes one character). -/
def classChar : List Char → Option (Char × List Char)
  | [] => none
  | '\\' :: rest =>
    match parseEscape true rest with
    | some (.ch c, r) => some (c, r)
    | _ => none
  | c :: rest => some (c, rest)

/-- Does the input start with a class-shorthand escape (`\w` and
    friends)? -/
def isMultiEscape : List Char → Bool
  | c :: _ => c == 'w' || c == 'W' || c == 'd' || c == 'D' || c == 's' || c == 'S'
  | [] => false

/-- Parse the body of a character class after `[` (and after a leading
    `^` has been consumed) up to the closing `]`.  `first` is true before
    any element has been parsed, where `]` is a literal.  Ranges
    `c1-c2` with `c2 < c1`, a shorthand used as a range endpoint, an
    unterminated class, and negated shorthands inside a class are errors,
    as in Python (the last is a Python extension outside the fragment). -/
def parseClassBody : Nat → Bool → List Char → Option (List ClassItem × List Char)
  | 0, _, _ => none
  | _, _, [] => none
  | fuel + 1, first, c :: rest =>
    if c = ']' ∧ first = false then some ([], rest)
    else if c = '\\' ∧ isMultiEscape rest then
      match parseEscape true rest with
      | some (.items its false, r1) =>
        match r1 with
        | '-' :: d :: _ =>
          if d = ']' then
            (fun pr => (its ++ pr.1, pr.2)) <$> parseClassBody fuel false r1
          else none
        | _ => (fun pr => (its ++ pr.1, pr.2)) <$> parseClassBody fuel false r1
      | _ => none
    else
      match classChar (c :: rest) with
      | none => none
      | some (c1, r1) =>
        match r1 with
        | '-' :: d :: r2 =>
          if d = ']' then
            (fun pr => (ClassItem.single c1 :: pr.1, pr.2)) <$> parseClassBody fuel false r1
          else
            match classChar (d :: r2) with
            | none => none
            | some (c2, r3) =>
              if c2 < c1 then none
              else (fun pr => (ClassItem.range c1 c2 :: pr.1, pr.2)) <$> parseClassBody fuel false r3
        | _ => (fun pr => (ClassItem.single c1 :: pr.1, pr.2)) <$> parseClassBody fuel false r1

/-- Parse a character class starting just after its `[`. -/
def parseClass (s : List Char) : Option (Regex × List Char) :=
  match s with
  | '^' :: rest =>
    match parseClassBody (rest.length + 1) true rest with
    | some (its, r) => some (.cls its true, r)
    | none => none
  | rest =>
    match parseClassBody (rest.length + 1) true rest with
    | some (its, r) => some (.cls its false, r)
    | none => none

/-- Consume a run of decimal digits, accumulating their value. -/
def digitsVal : List Char → Nat → Nat × List Char
  | [], acc => (acc, [])
  | c :: rest, acc =>
    if c.isDigit then digitsVal rest (10 * acc + (c.toNat - '0'.toNat))
    else (acc, c :: rest)

/-- Try to read a brace quantifier body starting just after `\x7b`:
    `m\x7d`, `m,\x7d` or `m,n\x7d`.  Returns the bounds and the input
    after the closing brace; `none` means the brace is not a quantifier
    (Python then treats the brace as a literal character). -/
def tryParseBrace (s : List Char) : Option (Nat × Option Nat × List Char) :=
  match s with
  | c :: _ =>
    if c.isDigit then
      match digitsVal s 0 with
      | (m, r1) =>
        match r1 with
        | '\x7d' :: r2 => some (m, some m, r2)
        | ',' :: r2 =>
          match r2 with
          | '\x7d' :: r3 => some (m, none, r3)
          | d :: _ =>
            if d.isDigit then
              match digitsVal r2 0 with
              | (n2, r3) =>
                match r3 with
                | '\x7d' :: r4 => some (m, some n2, r4)
                | _ => none
            else none
          | [] => none
        | _ => none
    else none
  | [] => none

/-- `r` repeated exactly `k` times. -/
def Regex.pow (r : Regex) : Nat → Regex
  | 0 => .eps
  | k + 1 => .cat r (Regex.pow r k)

/-- `r` repeated at most `k` times, with the given preference
    (greedy prefers taking an iteration, lazy prefers skipping it). -/
def optPow (r : Regex) (greedy : Bool) : Nat → Regex
  | 0 => .eps
  | k + 1 =>
    .cat (if greedy then Regex.alt r .eps else Regex.alt .eps r) (optPow r greedy k)

/-- Build the regex for a brace quantifier; an upper bound below the
    lower bound is an error, as in Python. -/
def mkRep (r : Regex) (m : Nat) (up : Option Nat) (greedy : Bool) : Option Regex :=
  match up with
  | none => some (.cat (r.pow m) (.star r greedy))
  | some n2 =>
    if n2 < m then none else some (.cat (r.pow m) (optPow r greedy (n2 - m)))

/-- Does the input start with a brace quantifier?  Used to reject a
    quantifier applied directly to a quantified atom ("multiple repeat"
    in Python). -/
def braceFollows : List Char → Bool
  | '\x7b' :: r => (tryParseBrace r).isSome
  | _ => false

/-- Parse the (possibly lazy) quantifier following an atom, if any.  A
    quantifier immediately followed by another brace quantifier is an
    error ("multiple repeat"); a following `*`, `+` or `?` is rejected
    later, when it is met in atom position. -/
def parseQuant (r : Regex) (s : List Char) : Option (Regex × List Char) :=
  match s with
  | '*' :: rest =>
    match rest with
    | '?' :: rest2 => if braceFollows rest2 then none else some (.star r false, rest2)
    | _ => if braceFollows rest then none else some (.star r true, rest)
  | '+' :: rest =>
    match rest with
    | '?' :: rest2 => if braceFollows rest2 then none else some (.cat r (.star r false), rest2)
    | _ => if braceFollows rest then none else some (.cat r (.star r true), rest)
  | '?' :: rest =>
    match rest with
    | '?' :: rest2 => if braceFollows rest2 then none else some (.alt .eps r, rest2)
    | _ => if braceFollows rest then none else some (.alt r .eps, rest)
  | '\x7b' :: rest =>
    match tryParseBrace rest with
    | some (m, up, rest2) =>
      match rest2 with
      | '?' :: rest3 =>
        if braceFollows rest3 then none
        else
          match mkRep r m up false with
          | some rr => some (rr, rest3)
          | none => none
      | _ =>
        if braceFollows rest2 then none
        else
          match mkRep r m up true with
          | some rr => some (rr, rest2)
          | none => none
    | none => some (r, '\x7b' :: rest)
  | _ => some (r, s)

/-- Parse one atom: a class, the dot, an escape, or a literal character.
    Groups and anchors are outside the modelled fragment and reported as
    errors; a bare `*`, `+` or `?` in atom position is Python's "nothing
    to repeat" / "multiple repeat" error. -/
def parseAtom : List Char → Option (Regex × List Char)
  | [] => none
  | c :: rest =>
    if c = '(' ∨ c = ')' then none
    else if c = '^' ∨ c = '$' then none
    else if c = '*' ∨ c = '+' ∨ c = '?' then none
    else if c = '[' then parseClass rest
    else if c = '.' then some (.cls [.single '\n'] true, rest)
    else if c = '\\' then
      match parseEscape false rest with
      | some (.ch c1, r1) => some (.char c1, r1)
      | some (.items its neg, r1) => some (.cls its neg, r1)
      | none => none
    else some (.char c, rest)

/-- Parse a concatenation of quantified atoms, stopping at `|` or the
    end of the input. -/
def parseSeq : Nat → List Char → Option (Regex × List Char)
  | 0, _ => none
  | _, [] => some (.eps, [])
  | fuel + 1, c :: rest =>
    if c = '|' then some (.eps, c :: rest)
    else
      match parseAtom (c :: rest) with
      | none => none
      | some (a, r1) =>
        match parseQuant a r1 with
        | none => none
        | some (a2, r2) =>
          match parseSeq fuel r2 with
          | none => none
          | some (tail, r3) => some (.cat a2 tail, r3)

/-- Parse an alternation of sequences. -/
def parseAlt : Nat → List Char → Option (Regex × List Char)
  | 0, _ => none
  | fuel + 1, s =>
    match parseSeq (s.length + 1) s with
    | none => none
    | some (r, rest) =>
      match rest with
      | '|' :: rest2 =>
        match parseAlt fuel rest2 with
        | none => none
        | some (r2, rest3) => some (.alt r r2, rest3)
      | _ => some (r, rest)

/-- Compile a pattern string; `none` models `re.error`. -/
def compilePattern (p : String) : Option Regex :=
  match parseAlt (p.length + 1) p.data with
  | some (r, []) => some r
  | _ => none

/-- Python template expansion for string `repl` arguments of `re.sub`
    (sre_parse.parse_template): known control escapes become the escaped
    character, a doubled backslash a single one, unknown ASCII-letter
    escapes are errors, group references are errors for the modelled
    patterns (which define no groups; `\0` and multi-digit octal escapes
    are likewise outside the fragment), and a backslash before any other
    character is kept verbatim together with that character. -/
def expandTemplate : List Char → Option (List Char)
  | [] => some []
  | c :: rest =>
    if c = '\\' then
      match rest with
      | [] => none
      | d :: rest2 =>
        if d = 'n' then (fun t => '\n' :: t) <$> expandTemplate rest2
        else if d = 't' then (fun t => '\t' :: t) <$> expandTemplate rest2
        else if d = 'r' then (fun t => '\r' :: t) <$> expandTemplate rest2
        else if d = 'a' then (fun t => '\x07' :: t) <$> expandTemplate rest2
        else if d = 'b' then (fun t => '\x08' :: t) <$> expandTemplate rest2
        else if d = 'f' then (fun t => '\x0c' :: t) <$> expandTemplate rest2
        else if d = 'v' then (fun t => '\x0b' :: t) <$> expandTemplate rest2
        else if d = '\\' then (fun t => '\\' :: t) <$> expandTemplate rest2
        else if d.isAlpha || d.isDigit then none
        else (fun t => '\\' :: d :: t) <$> expandTemplate rest2
    else (fun t => c :: t) <$> expandTemplate rest

/-- Model of `re.sub(pattern, repl, s)` with a string `repl`: compile the
    pattern (`none` models a raised `re.error`), expand the replacement
    template (a bad template is also `re.error`, raised before any match
    is attempted), then substitute every non-overlapping match. -/
def reSub (pattern repl s : String) : Option String :=
  match compilePattern pattern with
  | none => none
  | some r =>
    match expandTemplate repl.data with
    | none => none
    | some t => some (String.mk (subAll (subFuel r s.data) r t s.data))

/-- The five magic `replace_with` keywords recognised by `_scrub_line`. -/
def fakeKeywords : List String :=
  ["fake_name", "fake_email", "fake_address", "fake_phone_number", "fake_credit_card_number"]

/-- The synthetic category selected by a `replace_with` string, if it is
    one of the five keywords. -/
def keywordCat (s : String) : Option SynthCategory :=
  if s = "fake_name" then some .name
  else if s = "fake_email" then some .email
  else if s = "fake_address" then some .address
  else if s = "fake_phone_number" then some .phoneNumber
  else if s = "fake_credit_card_number" then some .creditCardNumber
  else none

/-- The replacement string handed to `re.sub` for one rule, with the
    faker call counter afterwards.  This mirrors the `if`/`elif` chain on
    `self.replace_with` in `_scrub_line`: `None` deletes, each keyword
    calls the corresponding faker method once (Python evaluates the
    argument before `re.sub` can raise, so the call happens even for an
    invalid pattern), and any other string is passed through.  `gen n c`
    is the value the n-th faker method call of the run returns when it
    requests category `c`; the counter models the faker's randomness
    source advancing once per call. -/
def ruleRepl (gen : Nat → SynthCategory → String) (replace_with : Option String)
    (n : Nat) : String × Nat :=
  match replace_with with
  | none => ("", n)
  | some s =>
    if s = "fake_name" then (gen n .name, n + 1)
    else if s = "fake_email" then (gen n .email, n + 1)
    else if s = "fake_address" then (gen n .address, n + 1)
    else if s = "fake_phone_number" then (gen n .phoneNumber, n + 1)
    else if s = "fake_credit_card_number" then (gen n .creditCardNumber, n + 1)
    else (s, n)

/-- One iteration of the rule loop in `_scrub_line`: compute the
    replacement (advancing the faker if the policy is synthetic), then
    call `re.sub`; `none` in the first component models a raised
    `re.error`. -/
def applyRule (gen : Nat → SynthCategory → String) (replace_with : Option String)
    (p : String) (cur : String) (n : Nat) : Option String × Nat :=
  (reSub p (ruleRepl gen replace_with n).1 cur, (ruleRepl gen replace_with n).2)

/-- The rule loop of `_scrub_line`: `line` is the original line kept for
    the error fallback, `cur` the running `sanitized_line`.  On the first
    failing rule the loop returns the original line (not `cur`). -/
def scrubLineAux (gen : Nat → SynthCategory → String) (replace_with : Option String)
    (line : String) : List String → String → Nat → String × Nat
  | [], cur, n => (cur, n)
  | p :: ps, cur, n =>
    match applyRule gen replace_with p cur n with
    | (some s, n2) => scrubLineAux gen replace_with line ps s n2
    | (none, n2) => (line, n2)

/-- `LogScrubber._scrub_line` (src/main.py lines 86-117). -/
def scrub_line (gen : Nat → SynthCategory → String) (replace_with : Option String)
    (patterns : List String) (line : String) (n : Nat) : String × Nat :=
  scrubLineAux gen replace_with line patterns line n

/-- The per-line write loop of `scrub_log` (src/main.py lines 70-73):
    scrub each line in order with the same scrubber (so the faker counter
    threads through). -/
def scrubLines (gen : Nat → SynthCategory → String) (replace_with : Option String)
    (patterns : List String) : List String → Nat → List String × Nat
  | [], n => ([], n)
  | l :: ls, n =>
    ((scrub_line gen replace_with patterns l n).1 ::
        (scrubLines gen replace_with patterns ls (scrub_line gen replace_with patterns l n).2).1,
      (scrubLines gen replace_with patterns ls (scrub_line gen replace_with patterns l n).2).2)

/-- `LogScrubber.scrub_log` (src/main.py lines 49-84) at the level the
    claims need: an empty (falsy) input path, output path or patterns
    list is rejected with a logged error and no output is produced
    (`none`), as is a missing input file; otherwise every input line is
    scrubbed and written in order.  Encoding detection and the in-place
    rename do not affect the produced lines and are not modelled. -/
def scrub_log (gen : Nat → SynthCategory → String) (input_file output_file : String)
    (patterns : List String) (replace_with : Option String) (inputExists : Bool)
    (lines : List String) (n : Nat) : Option (List String) × Nat :=
  if input_file = "" ∨ output_file = "" ∨ patterns = [] then (none, n)
  else if inputExists = false then (none, n)
  else
    (some (scrubLines gen replace_with patterns lines n).1,
      (scrubLines gen replace_with patterns lines n).2)

/-! Helper lemmas shared by the claim theorems. -/

/-- Rebuilding a string from its character list is the identity. -/
lemma mk_data (s : String) : String.mk s.data = s := rfl

/-- A keyword policy draws one fresh value of its category from the
    faker and advances the counter. -/
lemma ruleRepl_keyword (gen : Nat → SynthCategory → String) (n : Nat) {s : String}
    {c : SynthCategory} (h : keywordCat s = some c) :
    ruleRepl gen (some s) n = (gen n c, n + 1) := by
  unfold keywordCat at h
  unfold ruleRepl
  split_ifs at h ⊢ <;> simp_all

/-- A non-keyword policy string passes through unchanged and does not
    touch the faker. -/
lemma ruleRepl_literal (gen : Nat → SynthCategory → String) (n : Nat) {s : String}
    (h : keywordCat s = none) :
    ruleRepl gen (some s) n = (s, n) := by
  unfold keywordCat at h
  unfold ruleRepl
  split_ifs at h ⊢ <;> simp_all

/-- An uncompilable pattern makes `re.sub` raise regardless of the
    replacement and subject. -/
lemma reSub_invalid {p : String} (h : compilePattern p = none) (repl s : String) :
    reSub p repl s = none := by
  simp [reSub, h]

/-- A backslash-free replacement template expands to itself. -/
lemma expandTemplate_no_backslash :
    ∀ l : List Char, '\\' ∉ l → expandTemplate l = some l := by
  intro l
  induction l with
  | nil => intro _; rfl
  | cons c rest ih =>
    intro h
    have hc : ¬ c = '\\' := by
      intro e
      exact h (by simp [e])
    have hr : '\\' ∉ rest := fun m => h (List.mem_cons_of_mem _ m)
    unfold expandTemplate
    rw [if_neg hc, ih hr]
    rfl

/-- When no match of `r` starts anywhere in `l`, the substitution scan
    returns `l` unchanged, for any scan bound. -/
lemma subAllK_no_match (fuel : Nat) (r : Regex) (repl : List Char) :
    ∀ (l : List Char) (k : Nat), existsMatch fuel r l = false →
      subAllK k fuel r repl l = l := by
  intro l
  induction l with
  | nil =>
    intro k h
    unfold existsMatch at h
    have hn : matchHere fuel r [] = none := by
      rcases hm : matchHere fuel r [] with _ | v
      · rfl
      · rw [hm] at h; simp at h
    cases k
    · unfold subAllK; rw [hn]
    · unfold subAllK; rw [hn]
  | cons c cs ih =>
    intro k h
    unfold existsMatch at h
    rw [Bool.or_eq_false_iff] at h
    have hn : matchHere fuel r (c :: cs) = none := by
      rcases hm : matchHere fuel r (c :: cs) with _ | v
      · rfl
      · rw [hm] at h; simp at h
    match k with
    | 0 => rfl
    | k0 + 1 =>
      unfold subAllK
      rw [hn, ih k0 h.2]

/-- When no match of `r` starts anywhere in `l`, `re.sub`'s scan returns
    `l` unchanged. -/
lemma subAll_no_match (fuel : Nat) (r : Regex) (repl : List Char)
    (l : List Char) (h : existsMatch fuel r l = false) :
    subAll fuel r repl l = l :=
  subAllK_no_match fuel r repl l l.length h

/-- Generic witness values used by the concrete instantiations below. -/
def gen0 : Nat → SynthCategory → String := fun _ _ => ""

/-- A faker stream whose first two values differ, to separate
    once-per-rule from once-per-match generation. -/
def genXY : Nat → SynthCategory → String := fun n _ => if n = 0 then "X" else "Y"

def genA : Nat → SynthCategory → String := fun _ _ => "A"

def genB : Nat → SynthCategory → String := fun _ _ => "B"

/-- The email rule of the spec's concrete scenario 1. -/
def emailPat : String := "[a-zA-Z0-9._%+-]+@[a-zA-Z0-9.-]+\\.[a-zA-Z]\x7b2,\x7d"

def rEmail : Regex := (compilePattern emailPat).getD .eps

def rPw : Regex := (compilePattern "password=\\w+").getD .eps

def rB : Regex := (compilePattern "b").getD .eps

def rZz : Regex := (compilePattern "zz").getD .eps

/-- When the rule loop reaches a rule whose pattern does not compile, it
    returns the original line, whatever the running result was. -/
lemma scrubLineAux_invalid (gen : Nat → SynthCategory → String)
    (replaceWith : Option String) (line : String) :
    ∀ (ps : List String) (cur : String) (n : Nat),
      (∃ p ∈ ps, compilePattern p = none) →
      (scrubLineAux gen replaceWith line ps cur n).1 = line := by
  intro ps
  induction ps with
  | nil =>
    rintro cur n ⟨p, hp, _⟩
    exact absurd hp (List.not_mem_nil p)
  | cons q qs ih =>
    rintro cur n ⟨p, hp, hinv⟩
    rcases hq : applyRule gen replaceWith q cur n with ⟨o, n2⟩
    rcases o with _ | s
    · simp [scrubLineAux, hq]
    · have hqc : compilePattern q ≠ none := by
        intro hcn
        have hnone : (applyRule gen replaceWith q cur n).1 = none := by
          simp [applyRule, reSub_invalid hcn]
        rw [hq] at hnone
        simp at hnone
      have hpq : p ∈ qs := by
        rcases List.mem_cons.mp hp with h1 | h1
        · exact absurd (h1 ▸ hinv) hqc
        · exact h1
      simp only [scrubLineAux, hq]
      exact ih s n2 ⟨p, hpq, hinv⟩

/-- C1: for every input line, rules list and policy, if some rule's
    pattern fails to compile then `_scrub_line` returns the original,
    unmodified input line — not the partially sanitized intermediate from
    earlier valid rules.  In the model the `re.error` path is a total
    fallback value, mirroring the code's catch-and-log: the failure is
    never propagated to the caller. -/
theorem invalid_pattern_returns_original_line
    (gen : Nat → SynthCategory → String) (replaceWith : Option String)
    (patterns : List String) (line : String) (n : Nat) (p : String)
    (hp : p ∈ patterns) (hinv : compilePattern p = none) :
    (scrub_line gen replaceWith patterns line n).1 = line :=
  scrubLineAux_invalid gen replaceWith line patterns line n ⟨p, hp, hinv⟩

/-- Witness for C1: the first rule "a" alone would rewrite "ab" to "b",
    but with the invalid rule "[" in the list the original "ab" comes
    back. -/
theorem invalid_pattern_returns_original_line_witness :
    ("[" ∈ ["a", "["] ∧ compilePattern "[" = none) ∧
    (scrub_line gen0 none ["a", "["] "ab" 0).1 = "ab" ∧
    (scrub_line gen0 none ["a"] "ab" 0).1 = "b" :=
  ⟨⟨by decide, by decide⟩,
    invalid_pattern_returns_original_line gen0 none ["a", "["] "ab" 0 "[" (by decide) (by decide),
    by decide⟩

/-- C2 counterexample: rule "a" on line "a a" under policy fake_name with
    a faker whose first two values are "X" and "Y": both match sites
    receive the SAME value "X" and the faker advances once (counter 0 to
    1), whereas independent per-match generation would put "Y" at the
    second site and advance the counter twice. -/
theorem per_match_generation_counterexample :
    scrub_line genXY (some "fake_name") ["a"] "a a" 0 = ("X X", 1) ∧
    genXY 0 SynthCategory.name = "X" ∧ genXY 1 SynthCategory.name = "Y" ∧
    ("X X" : String) ≠ "X Y" ∧ (1 : Nat) ≠ 2 := by
  refine ⟨by decide, rfl, rfl, by decide, by decide⟩

/-- C2 (amended): under a SyntheticCategory policy the Synthetic Value
    Generator is consulted once per rule application — not once per match
    — and the single generated value (after template expansion, the
    identity for backslash-free values) is substituted at every match
    site of that rule in the line, while the faker counter advances by
    one. -/
theorem synthetic_one_value_per_rule
    (gen : Nat → SynthCategory → String) (kw p line : String) (n : Nat)
    (c : SynthCategory) (r : Regex) (t : List Char)
    (hkw : keywordCat kw = some c) (hp : compilePattern p = some r)
    (ht : expandTemplate (gen n c).data = some t) :
    scrub_line gen (some kw) [p] line n =
      (String.mk (subAll (subFuel r line.data) r t line.data), n + 1) := by
  have h1 := ruleRepl_keyword gen n hkw
  simp only [scrub_line, scrubLineAux, applyRule, h1, reSub, hp, ht]

/-- Witness for C2 (amended). -/
theorem synthetic_one_value_per_rule_witness :
    (keywordCat "fake_name" = some SynthCategory.name ∧
      compilePattern "b" = some rB ∧
      expandTemplate (genXY 0 SynthCategory.name).data = some "X".data) ∧
    scrub_line genXY (some "fake_name") ["b"] "b b" 0 = ("X X", 1) := by
  refine ⟨⟨by decide, by decide, by decide⟩, ?_⟩
  have h := synthetic_one_value_per_rule genXY "fake_name" "b" "b b" 0
    SynthCategory.name rB "X".data (by decide) (by decide) (by decide)
  exact h.trans (by decide)

/-- C4 counterexample: a LiteralText replacement is handed to `re.sub`
    as a template, so its backslash escapes are interpreted: with s the
    two characters backslash and n, the matched "a" is replaced by a
    newline character, not by s verbatim. -/
theorem literal_replacement_verbatim_counterexample :
    (scrub_line gen0 (some "\\n") ["a"] "a" 0).1 = "\n" ∧
    ("\n" : String) ≠ "\\n" := by
  exact ⟨by decide, by decide⟩

/-- C4 (amended): LiteralText(s) replaces each non-overlapping match
    with the template expansion of s; when s contains no backslash the
    expansion is s itself, so each match site receives exactly the same
    characters s with no per-match variation; backslash escapes in s are
    interpreted as by `re.sub`. -/
theorem literal_replacement_verbatim_amended
    (gen : Nat → SynthCategory → String) (p s line : String) (n : Nat) (r : Regex)
    (hs : keywordCat s = none) (hp : compilePattern p = some r)
    (hnb : ('\\' : Char) ∉ s.data) :
    scrub_line gen (some s) [p] line n =
      (String.mk (subAll (subFuel r line.data) r s.data line.data), n) := by
  have h1 := ruleRepl_literal gen n hs
  have h2 := expandTemplate_no_backslash s.data hnb
  simp only [scrub_line, scrubLineAux, applyRule, h1, reSub, hp, h2]

/-- Witness for C4 (amended): the spec's concrete scenario 2. -/
theorem literal_replacement_verbatim_amended_witness :
    (keywordCat "password=REDACTED" = none ∧
      compilePattern "password=\\w+" = some rPw ∧
      ('\\' : Char) ∉ ("password=REDACTED" : String).data) ∧
    scrub_line gen0 (some "password=REDACTED") ["password=\\w+"] "password=hunter2" 0 =
      ("password=REDACTED", 0) := by
  refine ⟨⟨by decide, by decide, by decide⟩, ?_⟩
  have h := literal_replacement_verbatim_amended gen0 "password=\\w+" "password=REDACTED"
    "password=hunter2" 0 rPw (by decide) (by decide) (by decide)
  exact h.trans (by decide)

/-- C5: under the Delete policy (replace_with = None) a valid rule's
    matches are each replaced by the empty string: one rule application
    is exactly the substitution scan with the empty replacement, and the
    faker is not consulted. -/
theorem delete_policy_removes_matches
    (gen : Nat → SynthCategory → String) (p line : String) (n : Nat) (r : Regex)
    (hp : compilePattern p = some r) :
    scrub_line gen none [p] line n =
      (String.mk (subAll (subFuel r line.data) r [] line.data), n) := by
  have h2 : expandTemplate (("" : String).data) = some [] := rfl
  simp only [scrub_line, scrubLineAux, applyRule, ruleRepl, reSub, hp, h2]

/-- Witness for C5: the spec's concrete scenario 1 — deleting the email
    from "User john@example.com logged in" leaves "User  logged in"
    (two spaces). -/
theorem delete_policy_removes_matches_witness :
    compilePattern emailPat = some rEmail ∧
    scrub_line gen0 none [emailPat] "User john@example.com logged in" 0 =
      ("User  logged in", 0) := by
  refine ⟨by decide, ?_⟩
  have h := delete_policy_removes_matches gen0 emailPat
    "User john@example.com logged in" 0 rEmail (by decide)
  exact h.trans (by decide)

/-- The write loop produces exactly one output line per input line. -/
lemma scrubLines_length (gen : Nat → SynthCategory → String)
    (replaceWith : Option String) (patterns : List String) :
    ∀ (ls : List String) (n : Nat),
      (scrubLines gen replaceWith patterns ls n).1.length = ls.length := by
  intro ls
  induction ls with
  | nil => intro n; rfl
  | cons l ls ih => intro n; simp [scrubLines, ih]

/-- Output line i of the write loop is the scrub of input line i, at the
    faker counter reached after the earlier lines. -/
lemma scrubLines_deriv (gen : Nat → SynthCategory → String)
    (replaceWith : Option String) (patterns : List String) :
    ∀ (ls : List String) (n i : Nat), i < ls.length →
      ∃ m l, ls[i]? = some l ∧
        (scrubLines gen replaceWith patterns ls n).1[i]? =
          some ((scrub_line gen replaceWith patterns l m).1) := by
  intro ls
  induction ls with
  | nil => intro n i hi; simp at hi
  | cons l0 ls ih =>
    intro n i hi
    cases i with
    | zero => exact ⟨n, l0, by simp, by simp [scrubLines]⟩
    | succ j =>
      have hj : j < ls.length := by simpa using hi
      obtain ⟨m, l, h1, h2⟩ := ih (scrub_line gen replaceWith patterns l0 n).2 j hj
      refine ⟨m, l, by simpa using h1, ?_⟩
      simpa [scrubLines] using h2

/-- C3: whenever `scrub_log` produces output, it has exactly one output
    line per input line, written in order, and output line i is the
    scrub of input line i at the faker counter reached by then; no line
    is ever dropped, even when a rule fails, because `_scrub_line`
    totalises the error path with the original line. -/
theorem output_lines_match_input_lines
    (gen : Nat → SynthCategory → String) (input_file output_file : String)
    (patterns : List String) (replaceWith : Option String) (inputExists : Bool)
    (lines out : List String) (n : Nat)
    (h : (scrub_log gen input_file output_file patterns replaceWith inputExists
        lines n).1 = some out) :
    out.length = lines.length ∧
      ∀ i, i < lines.length →
        ∃ m l, lines[i]? = some l ∧
          out[i]? = some ((scrub_line gen replaceWith patterns l m).1) := by
  unfold scrub_log at h
  split_ifs at h with h1 h2
  have hout : (scrubLines gen replaceWith patterns lines n).1 = out := by
    simpa using h
  subst hout
  exact ⟨scrubLines_length gen replaceWith patterns lines n,
    fun i hi => scrubLines_deriv gen replaceWith patterns lines n i hi⟩

/-- Witness for C3. -/
theorem output_lines_match_input_lines_witness :
    (scrub_log gen0 "in.log" "out.log" ["a"] none true ["ab", "b"] 0).1 =
      some ["b", "b"] ∧
    (["b", "b"] : List String).length = (["ab", "b"] : List String).length ∧
    ∀ i, i < (["ab", "b"] : List String).length →
      ∃ m l, (["ab", "b"] : List String)[i]? = some l ∧
        (["b", "b"] : List String)[i]? = some ((scrub_line gen0 none ["a"] l m).1) := by
  refine ⟨by decide, ?_⟩
  have h := output_lines_match_input_lines gen0 "in.log" "out.log" ["a"] none true
    ["ab", "b"] ["b", "b"] 0 (by decide)
  exact ⟨h.1, h.2⟩

/-- C6: when both rule applications succeed (valid patterns, no template
    failure), scrubbing with the two-rule list equals scrubbing with the
    first rule alone and then scrubbing that result with the second rule
    alone, the faker state threading through: each rule is applied to the
    updated result of the previous one, in list order. -/
theorem rule_chaining
    (gen : Nat → SynthCategory → String) (replaceWith : Option String)
    (A B line s1 s2 : String) (n n1 n2 : Nat)
    (hA : applyRule gen replaceWith A line n = (some s1, n1))
    (hB : applyRule gen replaceWith B s1 n1 = (some s2, n2)) :
    scrub_line gen replaceWith [A, B] line n =
      scrub_line gen replaceWith [B] (scrub_line gen replaceWith [A] line n).1
        (scrub_line gen replaceWith [A] line n).2 := by
  simp only [scrub_line, scrubLineAux, hA, hB]

/-- Witness for C6: deleting "a" from "ab" and then "b" from the result
    chains as the claim states. -/
theorem rule_chaining_witness :
    (applyRule gen0 none "a" "ab" 0 = (some "b", 0) ∧
      applyRule gen0 none "b" "b" 0 = (some "", 0)) ∧
    scrub_line gen0 none ["a", "b"] "ab" 0 =
      scrub_line gen0 none ["b"] (scrub_line gen0 none ["a"] "ab" 0).1
        (scrub_line gen0 none ["a"] "ab" 0).2 :=
  ⟨⟨by decide, by decide⟩,
    rule_chaining gen0 none "a" "b" "ab" "b" "" 0 0 0 (by decide) (by decide)⟩

/-- C7 counterexample: at the file level an empty rules list is NOT a
    no-op: `scrub_log` rejects it ("Input file, output file, and patterns
    must be provided"), logs an error and produces no output at all, so
    the output is not the unchanged input lines. -/
theorem empty_rules_counterexample :
    (scrub_log gen0 "in.log" "out.log" [] none true ["x"] 0).1 ≠ some ["x"] := by
  decide

/-- C7 (amended): `_scrub_line` with an empty rules list returns every
    line unchanged, for every policy and faker state; at the file level,
    however, `scrub_log` treats an empty patterns list as a configuration
    error and produces no output file. -/
theorem empty_rules_line_unchanged
    (gen : Nat → SynthCategory → String) (replaceWith : Option String)
    (line : String) (n : Nat) :
    scrub_line gen replaceWith [] line n = (line, n) := rfl

/-- A line none of whose positions starts a match of any rule passes
    through the rule loop unchanged (the faker may still advance). -/
lemma scrubLineAux_clean (gen : Nat → SynthCategory → String)
    (replaceWith : Option String) (line : String) :
    ∀ ps : List String,
      (∀ p ∈ ps, ∃ r, compilePattern p = some r ∧
          existsMatch (subFuel r line.data) r line.data = false) →
      ∀ n : Nat, (scrubLineAux gen replaceWith line ps line n).1 = line := by
  intro ps
  induction ps with
  | nil => intro _ n; rfl
  | cons q qs ih =>
    intro h n
    obtain ⟨r, hq, hnm⟩ := h q (List.mem_cons_self q qs)
    have hrec := ih (fun p hp => h p (List.mem_cons_of_mem q hp))
    rcases ht : expandTemplate ((ruleRepl gen replaceWith n).1).data with _ | t
    · have happ : applyRule gen replaceWith q line n =
          (none, (ruleRepl gen replaceWith n).2) := by
        simp [applyRule, reSub, hq, ht]
      simp [scrubLineAux, happ]
    · have hsub : subAll (subFuel r line.data) r t line.data = line.data :=
        subAll_no_match _ _ _ _ hnm
      have happ : applyRule gen replaceWith q line n =
          (some line, (ruleRepl gen replaceWith n).2) := by
        simp [applyRule, reSub, hq, ht, hsub, mk_data]
      simp only [scrubLineAux, happ]
      exact hrec _

/-- C8: a line containing no match of any of the (valid) rules' patterns
    is returned byte-for-byte identical, whatever the policy — Delete,
    LiteralText or SyntheticCategory. -/
theorem clean_line_unchanged
    (gen : Nat → SynthCategory → String) (replaceWith : Option String)
    (patterns : List String) (line : String) (n : Nat)
    (h : ∀ p ∈ patterns, ∃ r, compilePattern p = some r ∧
        existsMatch (subFuel r line.data) r line.data = false) :
    (scrub_line gen replaceWith patterns line n).1 = line :=
  scrubLineAux_clean gen replaceWith line patterns h n

/-- Witness for C8: rule "zz" has no match in "abc"; even under a
    synthetic policy the line is unchanged. -/
theorem clean_line_unchanged_witness :
    (compilePattern "zz" = some rZz ∧
      existsMatch (subFuel rZz ("abc" : String).data) rZz ("abc" : String).data = false) ∧
    (scrub_line genXY (some "fake_name") ["zz"] "abc" 0).1 = "abc" := by
  refine ⟨⟨by decide, by decide⟩, ?_⟩
  refine clean_line_unchanged genXY (some "fake_name") ["zz"] "abc" 0 ?_
  intro p hp
  have hpz : p = "zz" := by simpa using hp
  subst hpz
  exact ⟨rZz, by decide, by decide⟩

/-- C9: under any of the five synthetic keyword policies, one rule
    application consults the faker exactly once — the counter advances by
    one even when the pattern is invalid or has zero matches in the line
    (the faker method is called before `re.sub` evaluates the pattern) —
    and, when `re.sub` succeeds, every match site of the rule receives
    the same single generated value. -/
theorem generator_once_per_rule
    (gen : Nat → SynthCategory → String) (kw p line : String) (n : Nat)
    (c : SynthCategory) (hkw : keywordCat kw = some c) :
    (scrub_line gen (some kw) [p] line n).2 = n + 1 ∧
      (compilePattern p = none → (scrub_line gen (some kw) [p] line n).1 = line) ∧
      ∀ r t, compilePattern p = some r → expandTemplate (gen n c).data = some t →
        (scrub_line gen (some kw) [p] line n).1 =
          String.mk (subAll (subFuel r line.data) r t line.data) := by
  have h1 := ruleRepl_keyword gen n hkw
  refine ⟨?_, ?_, ?_⟩
  · rcases hr : reSub p (gen n c) line with _ | s
    · simp [scrub_line, scrubLineAux, applyRule, h1, hr]
    · simp [scrub_line, scrubLineAux, applyRule, h1, hr]
  · intro hcn
    simp [scrub_line, scrubLineAux, applyRule, h1, reSub_invalid hcn]
  · intro r t hp ht
    simp [scrub_line, scrubLineAux, applyRule, h1, reSub, hp, ht]

/-- Witness for C9 (category Email; the pattern "q" has one match in
    "qq"... in fact two, and the counter still advances exactly once). -/
theorem generator_once_per_rule_witness :
    keywordCat "fake_email" = some SynthCategory.email ∧
    ((scrub_line genXY (some "fake_email") ["q"] "qq" 0).2 = 0 + 1 ∧
      (compilePattern "q" = none →
        (scrub_line genXY (some "fake_email") ["q"] "qq" 0).1 = "qq") ∧
      ∀ r t, compilePattern "q" = some r →
        expandTemplate (genXY 0 SynthCategory.email).data = some t →
        (scrub_line genXY (some "fake_email") ["q"] "qq" 0).1 =
          String.mk (subAll (subFuel r ("qq" : String).data) r t ("qq" : String).data)) :=
  ⟨by decide, generator_once_per_rule genXY "fake_email" "q" "qq" 0
    SynthCategory.email (by decide)⟩

/-- A Delete or non-keyword policy never touches the faker: the
    replacement is fixed by the policy alone. -/
lemma ruleRepl_nonsynthetic (gen : Nat → SynthCategory → String)
    (replaceWith : Option String) (n : Nat)
    (h : replaceWith = none ∨ ∃ s, replaceWith = some s ∧ keywordCat s = none) :
    ruleRepl gen replaceWith n = (replaceWith.getD "", n) := by
  rcases h with h | ⟨s, hs1, hs2⟩
  · subst h; rfl
  · subst hs1
    simpa using ruleRepl_literal gen n hs2

/-- Under a non-synthetic policy the rule loop ignores the faker stream
    and leaves the counter where it started. -/
lemma scrubLineAux_nonsynthetic (gen1 gen2 : Nat → SynthCategory → String)
    (replaceWith : Option String) (line : String)
    (h : replaceWith = none ∨ ∃ s, replaceWith = some s ∧ keywordCat s = none) :
    ∀ (ps : List String) (cur : String) (n1 n2 : Nat),
      scrubLineAux gen1 replaceWith line ps cur n1 =
        ((scrubLineAux gen2 replaceWith line ps cur n2).1, n1) := by
  intro ps
  induction ps with
  | nil => intro cur n1 n2; rfl
  | cons q qs ih =>
    intro cur n1 n2
    have e1 : applyRule gen1 replaceWith q cur n1 =
        (reSub q (replaceWith.getD "") cur, n1) := by
      simp [applyRule, ruleRepl_nonsynthetic gen1 replaceWith n1 h]
    have e2 : applyRule gen2 replaceWith q cur n2 =
        (reSub q (replaceWith.getD "") cur, n2) := by
      simp [applyRule, ruleRepl_nonsynthetic gen2 replaceWith n2 h]
    rcases hr : reSub q (replaceWith.getD "") cur with _ | s
    · simp [scrubLineAux, e1, e2, hr]
    · simp only [scrubLineAux, e1, e2, hr]
      exact ih s n1 n2

/-- C10: under the Delete policy or any LiteralText policy (replace_with
    is None or a string that is not one of the five fake keywords),
    scrubbing a line is deterministic: the result does not depend on the
    faker stream or its counter, and the counter is left untouched — the
    randomness source is never consulted on that path. -/
theorem delete_literal_deterministic
    (gen1 gen2 : Nat → SynthCategory → String) (replaceWith : Option String)
    (patterns : List String) (line : String) (n1 n2 : Nat)
    (h : replaceWith = none ∨ ∃ s, replaceWith = some s ∧ keywordCat s = none) :
    scrub_line gen1 replaceWith patterns line n1 =
      ((scrub_line gen2 replaceWith patterns line n2).1, n1) :=
  scrubLineAux_nonsynthetic gen1 gen2 replaceWith line h patterns line n1 n2

/-- Witness for C10: two different faker streams at different counters
    give the same scrub under a literal policy. -/
theorem delete_literal_deterministic_witness :
    keywordCat "REDACTED" = none ∧
    scrub_line genA (some "REDACTED") ["a"] "abc" 5 =
      ((scrub_line genB (some "REDACTED") ["a"] "abc" 9).1, 5) ∧
    (scrub_line genA (some "REDACTED") ["a"] "abc" 5).1 = "REDACTEDbc" :=
  ⟨by decide,
    delete_literal_deterministic genA genB (some "REDACTED") ["a"] "abc" 5 9
      (Or.inr ⟨"REDACTED", rfl, by decide⟩),
    by decide⟩

end LogScrubber
